import Mathlib

/-!
Shallow embedding of the balancebeam reverse proxy
(`src/code/proj-2/balancebeam/src/main.rs`) and proofs of the spec's
claims about it.

Addresses are modelled as `String`.  The `HashSet<String>` of alive
upstreams is modelled as a duplicate-free `List String` with
membership-based insert and `List.erase` for removal.  The
`HashMap<String, u32>` rate-limit table is modelled as an association
list `List (String × Nat)`.  Network effects (probe outcomes, connect
outcomes, request-read outcomes, upstream write/read outcomes) are
modelled as explicit parameters.
-/

/-- Insert into a set-as-list, as `HashSet::insert`: a no-op when the
element is already present. -/
def hsInsert (s : List String) (x : String) : List String :=
  if x ∈ s then s else s ++ [x]

/-- Clearing the alive set, as `HashSet::clear` (main.rs line 155). -/
def hsClear (_s : List String) : List String := []

/-- Build the alive set from the configured upstream list, as
`options.upstream.clone().into_iter().collect()` (main.rs line 108). -/
def hsOfList (l : List String) : List String :=
  l.foldl hsInsert []

/-- Outcome of one health probe against one upstream: the TCP connect
failed, the probe-request write failed, reading the response failed, or
a response with the given status code arrived (main.rs lines 165-199). -/
inductive ProbeResult where
  | connectFailed
  | writeFailed
  | readFailed
  | status (code : Nat)
deriving DecidableEq

/-- True exactly when the probe outcome is a response with status 200,
the only case in which `health_check` inserts the upstream into the
alive set (main.rs lines 177-180). -/
def isAlive200 : ProbeResult → Bool
  | ProbeResult.status code => code == 200
  | _ => false

/-- One iteration of the `for upstream_ip in &state.upstream_addresses`
loop of `health_check` (main.rs lines 157-200): insert the upstream into
the accumulated alive set exactly when the probe answered status 200;
connect, write and read failures and non-200 statuses leave it out. -/
def probeStep (probe : String → ProbeResult) (acc : List String) (ip : String) : List String :=
  if isAlive200 (probe ip) then hsInsert acc ip else acc

/-- One round of `health_check` (main.rs lines 154-200): take the write
lock, clear the alive set, then probe every configured upstream and
insert those that answered 200.  `probe` records that round's outcome
for each address. -/
def health_check_round (alive configured : List String)
    (probe : String → ProbeResult) : List String :=
  configured.foldl (probeStep probe) (hsClear alive)

theorem mem_hsInsert (y x : String) (s : List String) :
    y ∈ hsInsert s x ↔ y ∈ s ∨ y = x := by
  unfold hsInsert
  split
  · constructor
    · exact fun h => Or.inl h
    · rintro (h | rfl)
      · exact h
      · assumption
  · simp [or_comm]

theorem mem_probeStep (probe : String → ProbeResult) (acc : List String)
    (ip y : String) :
    y ∈ probeStep probe acc ip ↔
      y ∈ acc ∨ (y = ip ∧ isAlive200 (probe ip) = true) := by
  unfold probeStep
  split
  · rw [mem_hsInsert]
    constructor
    · rintro (h | rfl)
      · exact Or.inl h
      · exact Or.inr ⟨rfl, by assumption⟩
    · rintro (h | ⟨rfl, _⟩)
      · exact Or.inl h
      · exact Or.inr rfl
  · constructor
    · exact fun h => Or.inl h
    · rintro (h | ⟨rfl, h200⟩)
      · exact h
      · simp_all

theorem mem_foldl_probeStep (probe : String → ProbeResult)
    (todo : List String) (acc : List String) (y : String) :
    y ∈ todo.foldl (probeStep probe) acc ↔
      y ∈ acc ∨ (y ∈ todo ∧ isAlive200 (probe y) = true) := by
  induction todo generalizing acc with
  | nil => simp
  | cons ip rest ih =>
    simp only [List.foldl_cons, ih, mem_probeStep]
    constructor
    · rintro ((h | ⟨rfl, h200⟩) | ⟨hm, h200⟩)
      · exact Or.inl h
      · exact Or.inr ⟨List.mem_cons_self _ _, h200⟩
      · exact Or.inr ⟨List.mem_cons_of_mem _ hm, h200⟩
    · rintro (h | ⟨hm, h200⟩)
      · exact Or.inl (Or.inl h)
      · rcases List.mem_cons.mp hm with rfl | hm
        · exact Or.inl (Or.inr ⟨rfl, h200⟩)
        · exact Or.inr ⟨hm, h200⟩

theorem isAlive200_iff (r : ProbeResult) :
    isAlive200 r = true ↔ r = ProbeResult.status 200 := by
  cases r <;> simp [isAlive200]

theorem mem_health_check_round (alive configured : List String)
    (probe : String → ProbeResult) (y : String) :
    y ∈ health_check_round alive configured probe ↔
      y ∈ configured ∧ probe y = ProbeResult.status 200 := by
  unfold health_check_round hsClear
  rw [mem_foldl_probeStep, isAlive200_iff]
  simp

/-- C1: for every configured upstream list, after one health-check round
the alive set is a subset of the configured list and holds exactly the
configured upstreams whose probe answered status 200; connect failures
and non-200 answers are excluded.  The result does not depend on the
previous alive set (the round clears it first and rebuilds it whole). -/
theorem health_check_round_spec (alive configured : List String)
    (probe : String → ProbeResult) :
    (∀ y, y ∈ health_check_round alive configured probe ↔
        y ∈ configured ∧ probe y = ProbeResult.status 200)
    ∧ health_check_round alive configured probe ⊆ configured
    ∧ (∀ other : List String,
        health_check_round alive configured probe =
          health_check_round other configured probe) := by
  refine ⟨fun y => mem_health_check_round alive configured probe y, ?_, fun _ => rfl⟩
  intro y hy
  exact ((mem_health_check_round alive configured probe y).mp hy).1

/-- Witness for C1 at a concrete round: upstreams a and b, a answers
200 and b fails to connect, so the round produces exactly the set
containing a. -/
theorem health_check_round_spec_witness :
    ("a" ∈ health_check_round ["stale"] ["a", "b"]
        (fun ip => if ip = "a" then ProbeResult.status 200 else ProbeResult.connectFailed)
      ↔ ("a" ∈ (["a", "b"] : List String)
          ∧ (if "a" = "a" then ProbeResult.status 200 else ProbeResult.connectFailed)
              = ProbeResult.status 200)) := by
  exact (health_check_round_spec ["stale"] ["a", "b"]
    (fun ip => if ip = "a" then ProbeResult.status 200 else ProbeResult.connectFailed)).1 "a"

/-- Abstraction of `alive_upstreams.clone().iter().choose(&mut rng)`
(main.rs line 209): a choice function that returns a member of a
nonempty set and returns nothing only on the empty set.  Which member is
returned is left abstract, standing for the uniform random draw. -/
structure Picker where
  pick : List String → Option String
  pick_mem : ∀ s x, pick s = some x → x ∈ s
  pick_none : ∀ s, pick s = none → s = []

/-- Result of `connect_to_upstream` (main.rs lines 204-231): either a
connection to upstream `ip`, or failure once no live upstream is left.
Both carry the alive set as the loop leaves it. -/
inductive ConnectResult where
  | ok (ip : String) (alive : List String)
  | err (alive : List String)
deriving DecidableEq

/-- The alive set as `connect_to_upstream` leaves it. -/
def ConnectResult.aliveOut : ConnectResult → List String
  | ConnectResult.ok _ alive => alive
  | ConnectResult.err alive => alive

/-- Embedding of `connect_to_upstream` (main.rs lines 204-231):
pick a random live upstream; none available means failure.  If the TCP
connect succeeds, return the stream; if it fails, erase that address
from the alive set, fail when the set has become empty, and otherwise
loop.  `canConnect` records which addresses accept a TCP connection. -/
def connect_to_upstream (p : Picker) (canConnect : String → Bool)
    (alive : List String) : ConnectResult :=
  match h : p.pick alive with
  | none => ConnectResult.err alive
  | some ip =>
    if canConnect ip then ConnectResult.ok ip alive
    else
      if (alive.erase ip).length = 0 then ConnectResult.err (alive.erase ip)
      else connect_to_upstream p canConnect (alive.erase ip)
termination_by alive.length
decreasing_by
  have hm := p.pick_mem alive ip h
  rw [List.length_erase_of_mem hm]
  exact Nat.sub_lt (List.length_pos_of_mem hm) Nat.one_pos

theorem connect_to_upstream_pick_none (p : Picker) (canConnect : String → Bool)
    (alive : List String) (h1 : p.pick alive = none) :
    connect_to_upstream p canConnect alive = ConnectResult.err alive := by
  rw [connect_to_upstream]
  split <;> simp_all

theorem connect_to_upstream_connect_ok (p : Picker) (canConnect : String → Bool)
    (alive : List String) (ip : String)
    (h1 : p.pick alive = some ip) (h2 : canConnect ip = true) :
    connect_to_upstream p canConnect alive = ConnectResult.ok ip alive := by
  rw [connect_to_upstream]
  split <;> simp_all

theorem connect_to_upstream_connect_fail (p : Picker) (canConnect : String → Bool)
    (alive : List String) (ip : String)
    (h1 : p.pick alive = some ip) (h2 : canConnect ip = false) :
    connect_to_upstream p canConnect alive =
      (if (alive.erase ip).length = 0 then ConnectResult.err (alive.erase ip)
       else connect_to_upstream p canConnect (alive.erase ip)) := by
  rw [connect_to_upstream]
  split <;> simp_all

/-- The rate-limit table, as `HashMap<String, u32>` keyed by client IP
(main.rs line 77): an association list from client IP to counter. -/
def RateMap : Type := List (String × Nat)

/-- Counter lookup; an absent key reads as 0, matching
`entry(...).or_insert(0)` (main.rs line 301). -/
def rmGet : RateMap → String → Nat
  | [], _ => 0
  | (k', v) :: rest, k => if k' = k then v else rmGet rest k

/-- One past the largest value a `u32` holds: 2^32. -/
def u32Limit : Nat := 4294967296

/-- The `*cnt += 1` on the `u32` counter (main.rs line 302), with the
release-profile wrapping semantics of Rust integer overflow: the value
after u32::MAX is 0.  (A debug build would panic at the wrap instead;
either way the counter never reaches 2^32.) -/
def u32Incr (v : Nat) : Nat := (v + 1) % u32Limit

/-- The `state.max_requests_per_minute.try_into().unwrap()` conversion
(main.rs line 304): a usize threshold converts to u32 unchanged when it
fits, and the unwrap panics when it is 2^32 or more. -/
def thresholdAsU32 (threshold : Nat) : Option Nat :=
  if threshold < u32Limit then some threshold else none

/-- The `*cnt += 1` on `entry(client_ip).or_insert(0)` (main.rs lines
301-302): create the entry at 0 when absent, then apply the wrapping
u32 increment. -/
def rmIncr : RateMap → String → RateMap
  | [], k => [(k, u32Incr 0)]
  | (k', v) :: rest, k =>
    if k' = k then (k', u32Incr v) :: rest else (k', v) :: rmIncr rest k

/-- One wakeup of `ramte_limit_map_clear` (main.rs lines 139-145): after
sleeping `rateLimitResetPeriodSecs` seconds, clear the whole table. -/
def ramte_limit_map_clear_step (_rm : RateMap) : RateMap := []

/-- The fixed reset period of the rate-limit window, from
`sleep(Duration::from_secs(60))` (main.rs line 141). -/
def rateLimitResetPeriodSecs : Nat := 60

/-- The rate-limit block of `handle_connection` (main.rs lines
298-313): when the configured threshold is positive, increment the
client's counter (wrapping, see `u32Incr`) and reject when the
post-increment value exceeds the threshold; when the threshold is 0 the
block is skipped entirely.  Returns the updated table and whether the
request was rejected.  The comparison is stated against the unconverted
threshold, which agrees with the source exactly on the regime where
`thresholdAsU32 threshold = some threshold`; for larger positive
thresholds the source panics at the conversion, so the theorems below
about positive thresholds stay inside that regime. -/
def rateLimitStep (threshold : Nat) (clientIp : String) (rm : RateMap) :
    RateMap × Bool :=
  if threshold > 0 then
    let rm' := rmIncr rm clientIp
    (rm', decide (rmGet rm' clientIp > threshold))
  else (rm, false)

/-- Classification of request-read failures produced by the external
request codec (`request::Error`, matched in main.rs lines 268-286). -/
inductive ReqError where
  | incompleteRequest (bytesRead : Nat)
  | malformedRequest
  | invalidContentLength
  | contentLengthMismatch
  | requestBodyTooLarge
  | connectionError
deriving DecidableEq

/-- Outcome of `request::read_from_stream` on the client socket
(main.rs line 265): a parsed request or a classified error. -/
inductive ReadOutcome where
  | ok
  | err (e : ReqError)
deriving DecidableEq

/-- The status code chosen for a request-read error by the `match error`
at main.rs lines 279-286 (the `ConnectionError → 503` arm is written in
the source but unreachable, because the arm at lines 273-276 returns
first). -/
def errorStatus : ReqError → Nat
  | ReqError.incompleteRequest _ => 400
  | ReqError.malformedRequest => 400
  | ReqError.invalidContentLength => 400
  | ReqError.contentLengthMismatch => 400
  | ReqError.requestBodyTooLarge => 413
  | ReqError.connectionError => 503

/-- Environment of one iteration of the request loop: what reading the
request from the client yields, and whether the write to and the read
from the upstream socket succeed this iteration. -/
structure IterEnv where
  readReq : ReadOutcome
  writeOk : Bool
  respOk : Bool
deriving DecidableEq

/-- Observable actions of the proxy on one client connection: an
error/rejection response built by `response::make_http_error` (or the
429 at main.rs line 305) sent to the client, a request forwarded to
upstream `ip`, and an upstream response relayed back to the client. -/
inductive Event where
  | response (status : Nat)
  | forwarded (ip : String)
  | relayed
deriving DecidableEq

/-- Result of one iteration of the request loop: the updated rate-limit
table, the events this iteration emitted, and whether the loop keeps the
connection open (`continue`) or returns (`return`). -/
structure IterResult where
  rm : RateMap
  events : List Event
  keepOpen : Bool

/-- One iteration of the `loop` in `handle_connection` (main.rs lines
263-347): read a request (EOF with zero bytes or a client I/O error
closes silently; other read errors answer `errorStatus` and continue),
apply the rate limiter (rejection answers 429, skips forwarding and
continues), forward to the upstream (write failure answers 502 and
closes), read the upstream response (failure answers 502 and closes),
and relay the response. -/
def handleIter (threshold : Nat) (clientIp upstreamIp : String)
    (rm : RateMap) (env : IterEnv) : IterResult :=
  match env.readReq with
  | ReadOutcome.err (ReqError.incompleteRequest 0) => ⟨rm, [], false⟩
  | ReadOutcome.err ReqError.connectionError => ⟨rm, [], false⟩
  | ReadOutcome.err e => ⟨rm, [Event.response (errorStatus e)], true⟩
  | ReadOutcome.ok =>
    match rateLimitStep threshold clientIp rm with
    | (rm', rejected) =>
      if rejected then ⟨rm', [Event.response 429], true⟩
      else if env.writeOk then
        if env.respOk then ⟨rm', [Event.forwarded upstreamIp, Event.relayed], true⟩
        else ⟨rm', [Event.forwarded upstreamIp, Event.response 502], false⟩
      else ⟨rm', [Event.response 502], false⟩

/-- The request loop of `handle_connection`, run over a finite prefix of
the client's activity: iterate `handleIter` until an iteration closes
the connection or the modelled activity ends. -/
def handleLoop (threshold : Nat) (clientIp upstreamIp : String) :
    RateMap → List IterEnv → RateMap × List Event
  | rm, [] => (rm, [])
  | rm, env :: rest =>
    let r := handleIter threshold clientIp upstreamIp rm env
    if r.keepOpen then
      let tail := handleLoop threshold clientIp upstreamIp r.rm rest
      (tail.1, r.events ++ tail.2)
    else (r.rm, r.events)

/-- Embedding of `handle_connection` (main.rs lines 246-348): connect
once to a randomly chosen live upstream — on failure answer 502 and
close — then run the request loop over that single upstream connection.
Returns the alive set after the connect phase, the final rate-limit
table, and the events sent on this connection. -/
def handle_connection (p : Picker) (canConnect : String → Bool)
    (threshold : Nat) (clientIp : String) (alive : List String)
    (rm : RateMap) (envs : List IterEnv) :
    List String × RateMap × List Event :=
  match connect_to_upstream p canConnect alive with
  | ConnectResult.err alive' => (alive', rm, [Event.response 502])
  | ConnectResult.ok ip alive' =>
    let r := handleLoop threshold clientIp ip rm envs
    (alive', r.1, r.2)

/-- A concrete choice function (always the first element), used to
instantiate `Picker` in witnesses. -/
def pickHead : Picker where
  pick := List.head?
  pick_mem := by
    intro s x h
    cases s with
    | nil => simp at h
    | cons a t =>
      simp at h
      subst h
      exact List.mem_cons_self a t
  pick_none := by
    intro s h
    cases s with
    | nil => rfl
    | cons a t => simp at h

/-- C7: classification of request-read errors, as in the error table:
end-of-stream with zero bytes read closes the connection with no
response; incomplete reads of nonzero bytes, malformed requests,
invalid content-length and content-length mismatch answer 400 and the
keep-alive loop continues; an oversized body answers 413 and the loop
continues; a client-stream I/O failure closes with no response. -/
theorem request_error_classification (threshold : Nat)
    (clientIp upstreamIp : String) (rm : RateMap) (w r : Bool) :
    handleIter threshold clientIp upstreamIp rm
        ⟨ReadOutcome.err (ReqError.incompleteRequest 0), w, r⟩ = ⟨rm, [], false⟩
    ∧ handleIter threshold clientIp upstreamIp rm
        ⟨ReadOutcome.err ReqError.connectionError, w, r⟩ = ⟨rm, [], false⟩
    ∧ (∀ n : Nat, handleIter threshold clientIp upstreamIp rm
        ⟨ReadOutcome.err (ReqError.incompleteRequest (n + 1)), w, r⟩ =
          ⟨rm, [Event.response 400], true⟩)
    ∧ handleIter threshold clientIp upstreamIp rm
        ⟨ReadOutcome.err ReqError.malformedRequest, w, r⟩ =
          ⟨rm, [Event.response 400], true⟩
    ∧ handleIter threshold clientIp upstreamIp rm
        ⟨ReadOutcome.err ReqError.invalidContentLength, w, r⟩ =
          ⟨rm, [Event.response 400], true⟩
    ∧ handleIter threshold clientIp upstreamIp rm
        ⟨ReadOutcome.err ReqError.contentLengthMismatch, w, r⟩ =
          ⟨rm, [Event.response 400], true⟩
    ∧ handleIter threshold clientIp upstreamIp rm
        ⟨ReadOutcome.err ReqError.requestBodyTooLarge, w, r⟩ =
          ⟨rm, [Event.response 413], true⟩ := by
  refine ⟨rfl, rfl, fun n => rfl, rfl, rfl, rfl, rfl⟩

/-- C8: with the rate-limit threshold configured to 0 the limiter block
is skipped entirely: the table is never touched, no request is answered
429, and a successfully read request is forwarded and its response
relayed. -/
theorem rate_limit_disabled (clientIp upstreamIp : String) (rm : RateMap)
    (env : IterEnv) :
    (handleIter 0 clientIp upstreamIp rm env).rm = rm
    ∧ (handleIter 0 clientIp upstreamIp rm env).events.count (Event.response 429) = 0
    ∧ handleIter 0 clientIp upstreamIp rm ⟨ReadOutcome.ok, true, true⟩ =
        ⟨rm, [Event.forwarded upstreamIp, Event.relayed], true⟩ := by
  obtain ⟨q, w, r⟩ := env
  refine ⟨?_, ?_, rfl⟩ <;>
  · cases q with
    | ok => cases w <;> cases r <;> simp [handleIter, rateLimitStep, List.count_cons]
    | err e =>
      cases e with
      | incompleteRequest n =>
        cases n <;> simp [handleIter, errorStatus, List.count_cons]
      | _ => simp [handleIter, errorStatus, List.count_cons]

/-- C6: when the request was admitted, a failed write to the upstream
answers the client 502 and closes the connection; a failed read of the
upstream response forwards first, then answers 502 and closes.  Neither
path touches the alive set: the alive set produced by
`handle_connection` is decided by the connect phase alone, whatever
happens in the request loop. -/
theorem upstream_io_failure_502 (p : Picker) (canConnect : String → Bool)
    (threshold : Nat) (clientIp upstreamIp : String) (rm : RateMap) (r : Bool)
    (hadm : (rateLimitStep threshold clientIp rm).2 = false) :
    handleIter threshold clientIp upstreamIp rm ⟨ReadOutcome.ok, false, r⟩ =
      ⟨(rateLimitStep threshold clientIp rm).1, [Event.response 502], false⟩
    ∧ handleIter threshold clientIp upstreamIp rm ⟨ReadOutcome.ok, true, false⟩ =
      ⟨(rateLimitStep threshold clientIp rm).1,
        [Event.forwarded upstreamIp, Event.response 502], false⟩
    ∧ (∀ (alive : List String) (envsA envsB : List IterEnv),
        (handle_connection p canConnect threshold clientIp alive rm envsA).1 =
        (handle_connection p canConnect threshold clientIp alive rm envsB).1) := by
  refine ⟨?_, ?_, ?_⟩
  · rcases hq : rateLimitStep threshold clientIp rm with ⟨rm', rej⟩
    rw [hq] at hadm
    simp at hadm
    subst hadm
    simp [handleIter, hq]
  · rcases hq : rateLimitStep threshold clientIp rm with ⟨rm', rej⟩
    rw [hq] at hadm
    simp at hadm
    subst hadm
    simp [handleIter, hq]
  · intro alive envsA envsB
    cases hc : connect_to_upstream p canConnect alive <;>
      simp [handle_connection, hc]

/-- Witness for C6: with the limiter disabled the request is admitted,
and a write failure to the upstream yields exactly one 502 response and
a closed connection. -/
theorem upstream_io_failure_502_witness :
    handleIter 0 "c" "u" [] ⟨ReadOutcome.ok, false, true⟩ =
      ⟨(rateLimitStep 0 "c" []).1, [Event.response 502], false⟩ :=
  (upstream_io_failure_502 pickHead (fun _ => true) 0 "c" "u" [] true rfl).1

theorem handleIter_forwarded (threshold : Nat) (clientIp upstreamIp : String)
    (rm : RateMap) (env : IterEnv) (j : String)
    (hj : Event.forwarded j ∈ (handleIter threshold clientIp upstreamIp rm env).events) :
    j = upstreamIp := by
  obtain ⟨q, w, r⟩ := env
  cases q with
  | ok =>
    rcases hq : rateLimitStep threshold clientIp rm with ⟨rm', rej⟩
    cases rej <;> cases w <;> cases r <;> simp_all [handleIter, hq]
  | err e =>
    cases e with
    | incompleteRequest n => cases n <;> simp_all [handleIter]
    | _ => simp_all [handleIter]

theorem handleLoop_forwarded (threshold : Nat) (clientIp upstreamIp : String) :
    ∀ (envs : List IterEnv) (rm : RateMap) (j : String),
      Event.forwarded j ∈ (handleLoop threshold clientIp upstreamIp rm envs).2 →
      j = upstreamIp := by
  intro envs
  induction envs with
  | nil => intro rm j hj; simp [handleLoop] at hj
  | cons env rest ih =>
    intro rm j hj
    rw [handleLoop] at hj
    by_cases hk : (handleIter threshold clientIp upstreamIp rm env).keepOpen
    · simp only [hk, if_true, List.mem_append] at hj
      rcases hj with hj | hj
      · exact handleIter_forwarded threshold clientIp upstreamIp rm env j hj
      · exact ih _ j hj
    · simp only [hk, Bool.false_eq_true, if_false] at hj
      exact handleIter_forwarded threshold clientIp upstreamIp rm env j hj

/-- C5: the upstream is chosen once per client connection: when the
connect phase picked upstream `ip`, every request forwarded during the
whole request loop goes to `ip`, whatever the per-iteration environment
does — the loop never re-selects an upstream. -/
theorem same_upstream_per_connection (p : Picker) (canConnect : String → Bool)
    (threshold : Nat) (clientIp : String) (alive : List String) (rm : RateMap)
    (envs : List IterEnv) (ip : String) (aliveOut : List String)
    (hconn : connect_to_upstream p canConnect alive = ConnectResult.ok ip aliveOut)
    (j : String)
    (hj : Event.forwarded j ∈
      (handle_connection p canConnect threshold clientIp alive rm envs).2.2) :
    j = ip := by
  rw [handle_connection, hconn] at hj
  exact handleLoop_forwarded threshold clientIp ip envs rm j hj

/-- Witness for C5: a connection that picked upstream u and then served
one request forwards that request to u. -/
theorem same_upstream_per_connection_witness : "u" = "u" := by
  refine same_upstream_per_connection pickHead (fun _ => true) 0 "c" ["u"] []
    [⟨ReadOutcome.ok, true, true⟩] "u" ["u"] ?_ "u" ?_
  · exact connect_to_upstream_connect_ok pickHead (fun _ => true) ["u"] "u" rfl rfl
  · have hc : connect_to_upstream pickHead (fun _ => true) ["u"] =
        ConnectResult.ok "u" ["u"] :=
      connect_to_upstream_connect_ok pickHead (fun _ => true) ["u"] "u" rfl rfl
    rw [handle_connection, hc]
    simp [handleLoop, handleIter, rateLimitStep]

/-- C3: when the connect attempt to the picked upstream fails, that
address is erased from the alive set and, unless the set has become
empty, another pick is tried on the shrunken set; an empty set (also
when empty from the start, so that nothing can be picked) makes the
connect phase fail, and `handle_connection` then answers the client a
single 502 response and closes. -/
theorem connect_failover_502 (p : Picker) (canConnect : String → Bool) :
    (∀ (alive : List String) (ip : String),
      p.pick alive = some ip → canConnect ip = false →
      connect_to_upstream p canConnect alive =
        (if (alive.erase ip).length = 0 then ConnectResult.err (alive.erase ip)
         else connect_to_upstream p canConnect (alive.erase ip)))
    ∧ connect_to_upstream p canConnect [] = ConnectResult.err []
    ∧ (∀ (threshold : Nat) (clientIp : String) (alive : List String)
        (rm : RateMap) (envs : List IterEnv) (s : List String),
        connect_to_upstream p canConnect alive = ConnectResult.err s →
        handle_connection p canConnect threshold clientIp alive rm envs =
          (s, rm, [Event.response 502])) := by
  refine ⟨?_, ?_, ?_⟩
  · intro alive ip h1 h2
    exact connect_to_upstream_connect_fail p canConnect alive ip h1 h2
  · have hnone : p.pick [] = none := by
      cases h : p.pick [] with
      | none => rfl
      | some x =>
        have := p.pick_mem [] x h
        simp at this
    exact connect_to_upstream_pick_none p canConnect [] hnone
  · intro threshold clientIp alive rm envs s hs
    rw [handle_connection, hs]

/-- Witness for C3: one configured upstream that refuses connections —
the failed attempt erases it, the set becomes empty, the connection
fails and the client gets a 502. -/
theorem connect_failover_502_witness :
    handle_connection pickHead (fun _ => false) 0 "c" ["a"] [] [] =
      ([], [], [Event.response 502]) := by
  have hfail := (connect_failover_502 pickHead (fun _ => false)).1 ["a"] "a" rfl rfl
  have herr : connect_to_upstream pickHead (fun _ => false) ["a"] =
      ConnectResult.err [] := by
    simpa [List.erase] using hfail
  exact (connect_failover_502 pickHead (fun _ => false)).2.2 0 "c" ["a"] [] [] [] herr

/-- Iterated increment of one client's counter, head-first. -/
def rmIncrN (rm : RateMap) (k : String) : Nat → RateMap
  | 0 => rm
  | n + 1 => rmIncrN (rmIncr rm k) k n

theorem u32Incr_eq (v : Nat) (h : v + 1 < u32Limit) : u32Incr v = v + 1 :=
  Nat.mod_eq_of_lt h

theorem rmGet_rmIncr (rm : RateMap) (k : String) :
    rmGet (rmIncr rm k) k = u32Incr (rmGet rm k) := by
  induction rm with
  | nil => simp [rmIncr, rmGet]
  | cons kv rest ih =>
    obtain ⟨k', v⟩ := kv
    by_cases hk : k' = k <;> simp [rmIncr, rmGet, hk, ih]

theorem rmGet_rmIncr_of_lt (rm : RateMap) (k : String)
    (h : rmGet rm k + 1 < u32Limit) :
    rmGet (rmIncr rm k) k = rmGet rm k + 1 := by
  rw [rmGet_rmIncr, u32Incr_eq _ h]

theorem rmIncrN_single (k : String) :
    ∀ (n m : Nat), m + n < u32Limit → rmIncrN [(k, m)] k n = [(k, m + n)] := by
  intro n
  induction n with
  | zero => intro m _; simp [rmIncrN]
  | succ n ih =>
    intro m hm
    have h1 : rmIncr [(k, m)] k = [(k, m + 1)] := by
      simp [rmIncr, u32Incr_eq m (by omega)]
    have h2 : m + 1 + n = m + (n + 1) := by omega
    rw [rmIncrN, h1, ih (m + 1) (by omega), h2]

theorem rmIncrN_nil (k : String) (n : Nat) (h0 : 0 < n) (h : n < u32Limit) :
    rmIncrN [] k n = [(k, n)] := by
  obtain ⟨s, rfl⟩ : ∃ s, n = s + 1 := ⟨n - 1, by omega⟩
  have h1 : rmIncr [] k = [(k, 1)] := by
    simp [rmIncr, u32Incr_eq 0 (by norm_num [u32Limit])]
  rw [rmIncrN, h1, rmIncrN_single k s 1 (by omega), Nat.add_comm 1 s]

theorem handleIter_admitted (threshold : Nat) (hth : 0 < threshold)
    (hlt : threshold < u32Limit) (clientIp upstreamIp : String) (rm : RateMap)
    (hcnt : rmGet rm clientIp + 1 ≤ threshold) :
    handleIter threshold clientIp upstreamIp rm ⟨ReadOutcome.ok, true, true⟩ =
      ⟨rmIncr rm clientIp, [Event.forwarded upstreamIp, Event.relayed], true⟩ := by
  have hrej : ¬ (rmGet (rmIncr rm clientIp) clientIp > threshold) := by
    rw [rmGet_rmIncr_of_lt rm clientIp (by omega)]
    omega
  simp [handleIter, rateLimitStep, hth, hrej]

theorem handleIter_rejected (threshold : Nat) (hth : 0 < threshold)
    (clientIp upstreamIp : String) (rm : RateMap)
    (hbound : rmGet rm clientIp + 1 < u32Limit)
    (hcnt : rmGet rm clientIp + 1 > threshold) :
    handleIter threshold clientIp upstreamIp rm ⟨ReadOutcome.ok, true, true⟩ =
      ⟨rmIncr rm clientIp, [Event.response 429], true⟩ := by
  have hrej : rmGet (rmIncr rm clientIp) clientIp > threshold := by
    rw [rmGet_rmIncr_of_lt rm clientIp hbound]
    omega
  simp [handleIter, rateLimitStep, hth, hrej]

theorem handleLoop_admitted_run (threshold : Nat) (hth : 0 < threshold)
    (hlt : threshold < u32Limit) (clientIp upstreamIp : String) :
    ∀ (n : Nat) (rm : RateMap) (rest : List IterEnv),
      rmGet rm clientIp + n ≤ threshold →
      handleLoop threshold clientIp upstreamIp rm
          (List.replicate n ⟨ReadOutcome.ok, true, true⟩ ++ rest) =
        ((handleLoop threshold clientIp upstreamIp (rmIncrN rm clientIp n) rest).1,
         (List.replicate n [Event.forwarded upstreamIp, Event.relayed]).flatten
           ++ (handleLoop threshold clientIp upstreamIp (rmIncrN rm clientIp n) rest).2) := by
  intro n
  induction n with
  | zero =>
    intro rm rest hcnt
    simp [rmIncrN]
  | succ n ih =>
    intro rm rest hcnt
    rw [List.replicate_succ, List.cons_append, handleLoop,
      handleIter_admitted threshold hth hlt clientIp upstreamIp rm (by omega)]
    have hrec := ih (rmIncr rm clientIp) rest
      (by rw [rmGet_rmIncr_of_lt rm clientIp (by omega)]; omega)
    simp [hrec, rmIncrN, List.replicate_succ, List.append_assoc]

/-- C2 (amended): with a positive threshold t small enough that the u32
counter cannot wrap and the usize-to-u32 threshold conversion succeeds
(t + 1 < 2^32), a client issuing t + 1 requests in one window has
requests 1..t admitted (forwarded and relayed) and request t + 1
answered 429 without being forwarded, with its counter still
incremented to t + 1; the reset task clears the whole table on its
fixed 60-second period; and after a clear the same client's next
request is admitted again.  The bound is necessary: at t = u32::MAX the
wrapping increment defeats the rejection (see the counterexample
below), and at t ≥ 2^32 the source panics converting the threshold. -/
theorem rate_limit_window (t : Nat) (ht : 0 < t) (hwrap : t + 1 < u32Limit)
    (clientIp upstreamIp : String) :
    thresholdAsU32 t = some t
    ∧ handleLoop t clientIp upstreamIp []
        (List.replicate (t + 1) ⟨ReadOutcome.ok, true, true⟩) =
      ([(clientIp, t + 1)],
       (List.replicate t [Event.forwarded upstreamIp, Event.relayed]).flatten
         ++ [Event.response 429])
    ∧ (∀ rm : RateMap, ramte_limit_map_clear_step rm = [])
    ∧ rateLimitResetPeriodSecs = 60
    ∧ (∀ rm : RateMap,
        handleIter t clientIp upstreamIp (ramte_limit_map_clear_step rm)
          ⟨ReadOutcome.ok, true, true⟩ =
        ⟨[(clientIp, 1)], [Event.forwarded upstreamIp, Event.relayed], true⟩) := by
  obtain ⟨s, rfl⟩ : ∃ s, t = s + 1 := ⟨t - 1, by omega⟩
  have hconv : thresholdAsU32 (s + 1) = some (s + 1) := by
    unfold thresholdAsU32
    rw [if_pos (by omega)]
  refine ⟨hconv, ?_, fun rm => rfl, rfl, ?_⟩
  · rw [List.replicate_succ' (s + 1)]
    rw [handleLoop_admitted_run (s + 1) ht (by omega) clientIp upstreamIp (s + 1) [] _
      (by simp [rmGet])]
    rw [rmIncrN_nil clientIp (s + 1) ht (by omega)]
    have hbound : rmGet [(clientIp, s + 1)] clientIp + 1 < u32Limit := by
      simpa [rmGet] using hwrap
    have hrej : rmGet [(clientIp, s + 1)] clientIp + 1 > s + 1 := by
      simp [rmGet]
    rw [handleLoop, handleIter_rejected (s + 1) ht clientIp upstreamIp
      [(clientIp, s + 1)] hbound hrej]
    have hincr : rmIncr [(clientIp, s + 1)] clientIp = [(clientIp, s + 1 + 1)] := by
      simp [rmIncr, u32Incr_eq (s + 1) (by omega)]
    simp [handleLoop, hincr]
  · intro rm
    rw [ramte_limit_map_clear_step,
      handleIter_admitted (s + 1) ht (by omega) clientIp upstreamIp [] (by simp [rmGet])]
    rfl

/-- Witness for C2 at threshold 2: three requests in one window give
two forwarded exchanges and then a 429, the counter ends at 3, and after
the clear a fresh request is admitted. -/
theorem rate_limit_window_witness :
    handleLoop 2 "c" "u" []
        (List.replicate 3 ⟨ReadOutcome.ok, true, true⟩) =
      ([("c", 3)],
       (List.replicate 2 [Event.forwarded "u", Event.relayed]).flatten
         ++ [Event.response 429]) :=
  (rate_limit_window 2 (by decide) (by norm_num [u32Limit]) "c" "u").2.1

/-- Counterexample to C2 as stated: at the admissible threshold
t = u32::MAX = 4294967295, the (t+1)-th increment wraps the u32 counter
to 0, so request t + 1 is admitted and forwarded like the others — no
429 is sent and the counter ends at 0 instead of t + 1 — refuting the
claim at this input.  (A debug build would panic at the wrapping
increment instead; it would not send the 429 either.) -/
theorem rate_limit_window_counterexample :
    0 < 4294967295
    ∧ handleLoop 4294967295 "c" "u" []
        (List.replicate (4294967295 + 1) ⟨ReadOutcome.ok, true, true⟩) =
      ([("c", 0)],
       (List.replicate (4294967295 + 1) [Event.forwarded "u", Event.relayed]).flatten)
    ∧ ¬ (handleLoop 4294967295 "c" "u" []
        (List.replicate (4294967295 + 1) ⟨ReadOutcome.ok, true, true⟩) =
      ([("c", 4294967295 + 1)],
       (List.replicate 4294967295 [Event.forwarded "u", Event.relayed]).flatten
         ++ [Event.response 429])) := by
  have hpos : (0 : Nat) < 4294967295 := by norm_num
  have hlt : (4294967295 : Nat) < u32Limit := by norm_num [u32Limit]
  have hev : (List.replicate (4294967295 + 1) [Event.forwarded "u", Event.relayed]).flatten
      = (List.replicate 4294967295 [Event.forwarded "u", Event.relayed]).flatten
        ++ [Event.forwarded "u", Event.relayed] := by
    rw [List.replicate_succ' 4294967295, List.flatten_append, List.flatten_cons,
      List.flatten_nil, List.append_nil]
  have htail : handleLoop 4294967295 "c" "u" [("c", 4294967295)]
      [⟨ReadOutcome.ok, true, true⟩] =
      ([("c", 0)], [Event.forwarded "u", Event.relayed]) := rfl
  have hrun : handleLoop 4294967295 "c" "u" []
      (List.replicate (4294967295 + 1) ⟨ReadOutcome.ok, true, true⟩) =
      ([("c", 0)],
       (List.replicate (4294967295 + 1) [Event.forwarded "u", Event.relayed]).flatten) := by
    rw [hev, List.replicate_succ' 4294967295]
    rw [handleLoop_admitted_run 4294967295 hpos hlt "c" "u" 4294967295 [] _
      (by simp [rmGet])]
    rw [rmIncrN_nil "c" 4294967295 hpos hlt, htail]
  refine ⟨hpos, hrun, ?_⟩
  intro hbad
  rw [hrun] at hbad
  have h1 : ([("c", (0 : Nat))] : RateMap) = [("c", 4294967295 + 1)] :=
    congrArg Prod.fst hbad
  injection h1 with hhead htl
  injection hhead with hfst hsnd
  omega

theorem mem_hsOfList (l : List String) (y : String) :
    y ∈ hsOfList l ↔ y ∈ l := by
  have general : ∀ acc, y ∈ l.foldl hsInsert acc ↔ y ∈ acc ∨ y ∈ l := by
    induction l with
    | nil => intro acc; simp
    | cons a rest ih =>
      intro acc
      rw [List.foldl_cons, ih, mem_hsInsert]
      constructor
      · rintro ((h | rfl) | h)
        · exact Or.inl h
        · exact Or.inr (List.mem_cons_self _ _)
        · exact Or.inr (List.mem_cons_of_mem _ h)
      · rintro (h | h)
        · exact Or.inl (Or.inl h)
        · rcases List.mem_cons.mp h with rfl | h
          · exact Or.inl (Or.inr rfl)
          · exact Or.inr h
  rw [hsOfList, general]
  simp

/-- The operations that ever mutate the alive set after startup: a full
health-check replacement (main.rs lines 154-200) and the erase of one
address whose connect attempt failed (main.rs lines 217-218). -/
inductive AliveStep (configured : List String) : List String → List String → Prop
  | health (a : List String) (probe : String → ProbeResult) :
      AliveStep configured a (health_check_round a configured probe)
  | removeFailed (a : List String) (ip : String) :
      AliveStep configured a (a.erase ip)

/-- C4: the alive set is always a subset of the configured upstream
list: it starts as the collected configured list and both kinds of
mutation preserve the inclusion, so every reachable alive set is
included in the configured list. -/
theorem upstream_subset_invariant (configured : List String) (s : List String)
    (h : Relation.ReflTransGen (AliveStep configured) (hsOfList configured) s) :
    s ⊆ configured := by
  induction h with
  | refl => intro y hy; exact (mem_hsOfList configured y).mp hy
  | tail _ hstep ih =>
    cases hstep with
    | health probe =>
      intro y hy
      exact ((mem_health_check_round _ configured probe y).mp hy).1
    | removeFailed ip =>
      intro y hy
      exact ih (List.erase_subset _ _ hy)

/-- Witness for C4 along a concrete execution: from the startup set for
upstreams a and b, one health-check round in which only a answers 200
followed by the removal of a after a failed connect leaves a set still
included in the configured list. -/
theorem upstream_subset_invariant_witness :
    ((health_check_round (hsOfList ["a", "b"]) ["a", "b"]
        (fun ip => if ip = "a" then ProbeResult.status 200 else ProbeResult.status 500)).erase "a")
      ⊆ ["a", "b"] := by
  refine upstream_subset_invariant ["a", "b"] _ ?_
  exact Relation.ReflTransGen.tail
    (Relation.ReflTransGen.tail (Relation.ReflTransGen.refl)
      (AliveStep.health (hsOfList ["a", "b"])
        (fun ip => if ip = "a" then ProbeResult.status 200 else ProbeResult.status 500)))
    (AliveStep.removeFailed _ "a")

/-- Phase of the Health Monitor with respect to the `RwLock` guarding
the alive set: `unlocked` between rounds (readers may read),
`lockedStart` right after `write().await` returned the guard (main.rs
line 154), `lockedRun` while the probe loop runs with the guard still
held; the guard is dropped only at the end of the loop body. -/
inductive HCPhase where
  | unlocked
  | lockedStart (probe : String → ProbeResult)
  | lockedRun (todo : List String) (probe : String → ProbeResult)

/-- Health-check system state: the monitor's lock phase and the shared
alive set. -/
structure HCState where
  phase : HCPhase
  alive : List String

/-- Micro-steps of one health-check round (main.rs lines 154-200), at
the granularity at which concurrent readers could interleave: acquire
the write guard, clear the set, probe one configured upstream (awaiting
its connect and its response while still holding the guard), drop the
guard.  A reader can observe `alive` only in an `unlocked` state,
because `RwLock` blocks readers while the writer holds the guard. -/
inductive HCStep (configured : List String) : HCState → HCState → Prop
  | acquire (a : List String) (probe : String → ProbeResult) :
      HCStep configured ⟨HCPhase.unlocked, a⟩ ⟨HCPhase.lockedStart probe, a⟩
  | clearAlive (a : List String) (probe : String → ProbeResult) :
      HCStep configured ⟨HCPhase.lockedStart probe, a⟩
        ⟨HCPhase.lockedRun configured probe, hsClear a⟩
  | probeOne (a : List String) (probe : String → ProbeResult)
      (ip : String) (rest : List String) :
      HCStep configured ⟨HCPhase.lockedRun (ip :: rest) probe, a⟩
        ⟨HCPhase.lockedRun rest probe, probeStep probe a ip⟩
  | release (a : List String) (probe : String → ProbeResult) :
      HCStep configured ⟨HCPhase.lockedRun [] probe, a⟩ ⟨HCPhase.unlocked, a⟩

/-- An alive set is complete when it is the startup set or the full
result of some finished probe round. -/
def hcComplete (configured initial : List String) (a : List String) : Prop :=
  a = initial ∨ ∃ probe, a = health_check_round initial configured probe

/-- Invariant of the health-check system: outside the locked region the
alive set is complete; inside it, it is the partial fold over the
already-probed prefix of the configured list. -/
def hcInv (configured initial : List String) : HCState → Prop
  | ⟨HCPhase.unlocked, a⟩ => hcComplete configured initial a
  | ⟨HCPhase.lockedStart _, a⟩ => hcComplete configured initial a
  | ⟨HCPhase.lockedRun todo probe, a⟩ =>
      ∃ done, configured = done ++ todo ∧ a = done.foldl (probeStep probe) []

theorem hcInv_step (configured initial : List String) (x y : HCState)
    (hstep : HCStep configured x y) (hx : hcInv configured initial x) :
    hcInv configured initial y := by
  cases hstep with
  | acquire a probe => exact hx
  | clearAlive a probe => exact ⟨[], by simp, rfl⟩
  | probeOne a probe ip rest =>
    obtain ⟨done, hconf, ha⟩ := hx
    refine ⟨done ++ [ip], by simp [hconf], ?_⟩
    rw [List.foldl_append, ha]
    rfl
  | release a probe =>
    obtain ⟨done, hconf, ha⟩ := hx
    rw [List.append_nil] at hconf
    subst hconf
    exact Or.inr ⟨probe, by rw [ha]; rfl⟩

theorem hc_reachable_inv (configured : List String) (s : HCState)
    (h : Relation.ReflTransGen (HCStep configured)
        ⟨HCPhase.unlocked, hsOfList configured⟩ s) :
    hcInv configured (hsOfList configured) s := by
  induction h with
  | refl => exact Or.inl rfl
  | tail _ hstep ih => exact hcInv_step configured (hsOfList configured) _ _ hstep ih

/-- C9: during health-check rounds no reader ever observes a
partially-rebuilt alive set.  The write guard is held from the clear to
the end of the probe loop, so reads happen only in unlocked states, and
in every reachable unlocked state the alive set is either the complete
previous set (here: the startup set or a previous round's full result)
or the complete result of a finished round — never the transient
contents between the clear and the last insert. -/
theorem health_check_readers_consistent (configured : List String) (s : HCState)
    (h : Relation.ReflTransGen (HCStep configured)
        ⟨HCPhase.unlocked, hsOfList configured⟩ s)
    (hread : s.phase = HCPhase.unlocked) :
    s.alive = hsOfList configured
    ∨ ∃ probe, s.alive = health_check_round (hsOfList configured) configured probe := by
  have hinv : hcInv configured (hsOfList configured) s :=
    hc_reachable_inv configured s h
  obtain ⟨phase, alive⟩ := s
  cases phase with
  | unlocked => exact hinv
  | lockedStart probe => simp at hread
  | lockedRun todo probe => simp at hread

/-- Witness for C9: a full round (acquire, clear, one probe, release)
over a single configured upstream whose probe fails; the state readable
after the round is a complete set, here the empty result of the finished
round, not an intermediate one. -/
theorem health_check_readers_consistent_witness :
    (HCState.mk HCPhase.unlocked
        (probeStep (fun _ => ProbeResult.connectFailed)
          (hsClear (hsOfList ["a"])) "a")).alive = hsOfList ["a"]
    ∨ ∃ probe,
        (HCState.mk HCPhase.unlocked
          (probeStep (fun _ => ProbeResult.connectFailed)
            (hsClear (hsOfList ["a"])) "a")).alive =
          health_check_round (hsOfList ["a"]) ["a"] probe := by
  refine health_check_readers_consistent ["a"] _ ?_ rfl
  exact Relation.ReflTransGen.tail
    (Relation.ReflTransGen.tail
      (Relation.ReflTransGen.tail
        (Relation.ReflTransGen.tail (Relation.ReflTransGen.refl)
          (HCStep.acquire (hsOfList ["a"]) (fun _ => ProbeResult.connectFailed)))
        (HCStep.clearAlive (hsOfList ["a"]) (fun _ => ProbeResult.connectFailed)))
      (HCStep.probeOne (hsClear (hsOfList ["a"])) (fun _ => ProbeResult.connectFailed) "a" []))
    (HCStep.release _ (fun _ => ProbeResult.connectFailed))

/-- The alive set built at startup (main.rs line 108):
`options.upstream.clone().into_iter().collect()`, installed in
`ProxyState.alive_upstreams` before any task runs; the Health Monitor
sleeps one interval before its first probe (main.rs lines 148-152), so
this set serves connections accepted during the first interval. -/
def hashd_upstreams (upstream : List String) : List String :=
  hsOfList upstream

/-- C10: the startup alive set holds exactly the configured upstream
addresses, and since startup requires at least one configured upstream
(main.rs lines 92-95) it is nonempty — connections in the first interval
are routed among upstreams that have never been probed. -/
theorem startup_alive_set (upstream : List String) (hne : upstream ≠ []) :
    (∀ y, y ∈ hashd_upstreams upstream ↔ y ∈ upstream)
    ∧ hashd_upstreams upstream ≠ [] := by
  refine ⟨fun y => mem_hsOfList upstream y, ?_⟩
  intro hempty
  cases upstream with
  | nil => exact hne rfl
  | cons a rest =>
    have : a ∈ hashd_upstreams (a :: rest) :=
      (mem_hsOfList (a :: rest) a).mpr (List.mem_cons_self a rest)
    rw [hashd_upstreams] at hempty
    rw [hashd_upstreams, hempty] at this
    simp at this

/-- Witness for C10 with two configured upstreams. -/
theorem startup_alive_set_witness :
    (∀ y, y ∈ hashd_upstreams ["a", "b"] ↔ y ∈ (["a", "b"] : List String))
    ∧ hashd_upstreams ["a", "b"] ≠ [] :=
  startup_alive_set ["a", "b"] (by simp)

/-- Witness for C7: a zero-byte end-of-stream closes the connection
with no response. -/
theorem request_error_classification_witness :
    handleIter 0 "c" "u" []
        ⟨ReadOutcome.err (ReqError.incompleteRequest 0), true, true⟩ =
      ⟨[], [], false⟩ :=
  (request_error_classification 0 "c" "u" [] true true).1

/-- Witness for C8: with threshold 0, one successful request leaves the
table untouched. -/
theorem rate_limit_disabled_witness :
    (handleIter 0 "c" "u" [] ⟨ReadOutcome.ok, true, true⟩).rm = [] :=
  (rate_limit_disabled "c" "u" [] ⟨ReadOutcome.ok, true, true⟩).1
